import Mathlib

/-
Verification of the CEL interpretable planner
(vendor/github.com/google/cel-go/interpreter/planner.go).

The planner compiles a parsed expression tree (proto Expr) into an
executable evaluation graph of Interpretable nodes.  This file gives a
shallow embedding of that compilation step:

- `Expr` / `Entry` embed the proto expression tree consumed by the planner.
- `Interp` embeds the produced Interpretable node shapes (evalConst,
  evalIdent, evalSelect, evalTestOnly, evalZeroArity, evalUnary, evalBinary,
  evalVarArgs, evalEq, evalNe, evalAnd, evalOr, evalConditional, evalList,
  evalMap, evalObj, evalFold).  Run-time collaborators stored inside the Go
  structs (the TypeProvider and TypeAdapter interface values) carry no
  plan-time information and are not represented; the optional resolver
  closures produced by planner.idResolver are represented by the identifier
  string they close over (an `Option String` field), since the closure is
  fully determined by that string and the planner configuration.
- `Planner` embeds the planner struct's read-only configuration: the
  Dispatcher (FindOverload), the type-existence part of the TypeProvider
  (FindType), the Packager, the checked-expression reference map and the
  decorator list.
- `PState` embeds the planner's mutable state: the identMap identifier
  cache.  It additionally carries `decorLog`, a ghost (write-only) list
  that records the input of every individual decorator invocation in
  order; no planning result ever depends on it.  It only makes decorator
  re-application observable in the pure embedding.
- Go errors returned with fmt.Errorf are `Failure.fail msg`; a Go runtime
  panic (out-of-range slice index, nil dereference) is `Failure.panic`.
-/

namespace CelPlanner

/-- A CEL runtime value produced from a literal by planner.constValue.
The float64 payload of a double literal is carried opaquely (no
floating-point arithmetic happens at plan time). -/
inductive Val where
  | boolV (b : Bool)
  | bytesV (bs : List Nat)
  | doubleV (bits : Int)
  | intV (i : Int)
  | nullV
  | stringV (s : String)
  | uintV (n : Nat)
deriving DecidableEq, Repr

/-- A proto Constant literal.  `unset` models a Constant whose ConstantKind
oneof is not populated, which the planner rejects as an unknown constant
kind. -/
inductive Constant where
  | boolValue (b : Bool)
  | bytesValue (bs : List Nat)
  | doubleValue (bits : Int)
  | int64Value (i : Int)
  | nullValue
  | stringValue (s : String)
  | uint64Value (n : Nat)
  | unset
deriving DecidableEq, Repr

/-- Outcome of a failed planning step: an error value returned by the Go
code (`fail`), or a Go runtime panic (`panic`). -/
inductive Failure where
  | fail (msg : String)
  | panic
deriving DecidableEq, Repr

mutual

/-- A proto expression node (exprpb.Expr), tagged with its stable id. -/
inductive Expr where
  | const (id : Nat) (c : Constant)
  | ident (id : Nat) (name : String)
  | select (id : Nat) (operand : Expr) (field : String) (testOnly : Bool)
  | call (id : Nat) (target : Option Expr) (function : String) (args : List Expr)
  | createList (id : Nat) (elems : List Expr)
  | createStruct (id : Nat) (messageName : String) (entries : List Entry)
  | comprehension (id : Nat) (iterVar : String) (iterRange : Expr)
      (accuVar : String) (accuInit : Expr)
      (loopCondition : Expr) (loopStep : Expr) (result : Expr)

/-- A CreateStruct entry: either a field entry (object construction) or a
map-key entry (map construction). -/
inductive Entry where
  | fieldEntry (fieldKey : String) (value : Expr)
  | mapEntry (mapKey : Expr) (value : Expr)

end

/-- The proto getter GetFieldKey: returns the field key, or the empty
string when the entry's key oneof holds a map key instead. -/
def fieldKeyOf : Entry → String
  | .fieldEntry f _ => f
  | .mapEntry _ _ => ""

/-- An Interpretable plan node (the output graph of planning). -/
inductive Interp where
  | evalConst (id : Nat) (val : Val)
  | evalIdent (id : Nat) (name : String) (resolveID : Option String)
  | evalTestOnly (id : Nat) (field : String) (op : Interp)
  | evalSelect (id : Nat) (field : String) (op : Interp) (resolveID : Option String)
  | evalZeroArity (id : Nat) (impl : String)
  | evalUnary (id : Nat) (function : String) (overload : String)
      (arg : Interp) (trait : Nat) (impl : Option String)
  | evalBinary (id : Nat) (function : String) (overload : String)
      (lhs : Interp) (rhs : Interp) (trait : Nat) (impl : Option String)
  | evalVarArgs (id : Nat) (function : String) (overload : String)
      (args : List Interp) (trait : Nat) (impl : Option String)
  | evalEq (id : Nat) (lhs : Interp) (rhs : Interp)
  | evalNe (id : Nat) (lhs : Interp) (rhs : Interp)
  | evalAnd (id : Nat) (lhs : Interp) (rhs : Interp)
  | evalOr (id : Nat) (lhs : Interp) (rhs : Interp)
  | evalConditional (id : Nat) (expr : Interp) (truthy : Interp) (falsy : Interp)
  | evalList (id : Nat) (elems : List Interp)
  | evalMap (id : Nat) (keys : List Interp) (vals : List Interp)
  | evalObj (id : Nat) (typeName : String) (fields : List String) (vals : List Interp)
  | evalFold (id : Nat) (accuVar : String) (accu : Interp) (iterVar : String)
      (iterRange : Interp) (cond : Interp) (step : Interp) (result : Interp)

/-- An InterpretableDecorator: a pure transform from an Interpretable to
an Interpretable or an error. -/
abbrev Decorator := Interp → Except String Interp

/-- A checked-expression Reference entry (exprpb.Reference): resolved
absolute name, candidate overload ids, and optional inlined constant. -/
structure Reference where
  name : String
  overloadId : List String
  value : Option Constant
deriving DecidableEq, Repr

/-- Modelled from the spec: the interpreter/functions Overload entry (its
source file is not part of this repository snapshot; only planner.go,
which consumes the fields Unary, Binary, Function and OperandTrait, is).
An Overload carries an operator name, optional arity-specific
implementation handles (Function doubles as the zero-arity and variadic
form, exactly as planner.go uses it), and an operand-capability trait
mask.  Implementation handles are opaque at plan time and are represented
by string tags. -/
structure Overload where
  operator : String
  unary : Option String := none
  binary : Option String := none
  function : Option String := none
  operandTrait : Nat := 0

/-- The packages.Packager collaborator: the current package name, and the
ordered candidate-name expansion (most specific first). -/
structure Packager where
  package : String
  resolveCandidateNames : String → List String

/-- The planner's read-only configuration: Dispatcher.FindOverload, the
type-existence part of ref.TypeProvider (FindType, as a membership
predicate), the Packager, the checked reference map and the decorators.
The TypeAdapter and the per-node type map are carried by the Go planner
but never influence plan structure, so they are not represented. -/
structure Planner where
  disp : String → Option Overload
  provider : String → Bool
  pkg : Packager
  refMap : Nat → Option Reference
  decorators : List Decorator

/-- The planner's mutable state: the identifier cache `identMap`
(name to shared node, most recent binding first), plus the ghost
`decorLog` recording the input of each decorator invocation in order. -/
structure PState where
  identMap : List (String × Interp)
  decorLog : List Interp

/-- Lookup in the identifier cache. -/
def lookupIdent : List (String × Interp) → String → Option Interp
  | [], _ => none
  | (k, v) :: rest, n => if k = n then some v else lookupIdent rest n

/-- Insert into the identifier cache (Go map assignment). -/
def pushIdent (st : PState) (name : String) (i : Interp) : PState :=
  { st with identMap := (name, i) :: st.identMap }

/-- The operator names from the common/operators package under which
planCall specializes (their source file is outside this snapshot;
the values are the CEL standard internal operator symbols named by the
spec as logical AND, logical OR, ternary conditional, equality,
inequality). -/
def opLogicalAnd : String := "_&&_"

/-- Logical OR operator name. -/
def opLogicalOr : String := "_||_"

/-- Ternary conditional operator name. -/
def opConditional : String := "_?_:_"

/-- Equality operator name. -/
def opEquals : String := "_==_"

/-- Inequality operator name. -/
def opNotEquals : String := "_!=_"

/-- planner.constValue: convert a proto Constant to a runtime value. -/
def constValue : Constant → Except Failure Val
  | .boolValue b => .ok (.boolV b)
  | .bytesValue bs => .ok (.bytesV bs)
  | .doubleValue bits => .ok (.doubleV bits)
  | .int64Value i => .ok (.intV i)
  | .nullValue => .ok .nullV
  | .stringValue s => .ok (.stringV s)
  | .uint64Value n => .ok (.uintV n)
  | .unset => .error (.fail "unknown constant type")

/-- planner.planConst: build an evalConst node from a literal. -/
def planConst (id : Nat) (c : Constant) (st : PState) :
    Except Failure (Interp × PState) :=
  match constValue c with
  | .error e => .error e
  | .ok v => .ok (.evalConst id v, st)

/-- The decorator loop inside planner.decorate: apply each decorator in
order to the node, aborting on the first decorator error.  Each
invocation's input is recorded in the ghost decorLog (results never
depend on the log). -/
def decorateLoop (decs : List Decorator) (i : Interp) (st : PState) :
    Except Failure (Interp × PState) :=
  match decs with
  | [] => .ok (i, st)
  | d :: rest =>
      let st1 : PState := { st with decorLog := st.decorLog ++ [i] }
      match d i with
      | .error msg => .error (.fail msg)
      | .ok i2 => decorateLoop rest i2 st1

/-- planner.decorate: pass a plan step's result through the decorator
chain; an incoming error is propagated unchanged. -/
def decorate (p : Planner) :
    Except Failure (Interp × PState) → Except Failure (Interp × PState)
  | .error e => .error e
  | .ok (i, st) => decorateLoop p.decorators i st

/-- Go slice indexing args[i]: out of range is a runtime panic. -/
def index (args : List Interp) (i : Nat) : Except Failure Interp :=
  match args.get? i with
  | some a => .ok a
  | none => .error .panic

/-- planner.planIdent: return the cached shared node if present; else
build an evalIdent, attaching a namespace-resolution fallback (the
idResolver closure over the name) only when the current package is
non-empty, cache it and return it. -/
def planIdentCore (p : Planner) (id : Nat) (name : String) (st : PState) :
    Except Failure (Interp × PState) :=
  match lookupIdent st.identMap name with
  | some i => .ok (i, st)
  | none =>
      let resolver : Option String :=
        if p.pkg.package ≠ "" then some name else none
      let i : Interp := .evalIdent id name resolver
      .ok (i, pushIdent st name i)

/-- The reference-map branch of planner.planSelect: a statically resolved
select.  If the reference carries a constant value the node is replanned
as that constant via p.Plan on a fresh ConstExpr (Plan dispatches a
ConstExpr to decorate of planConst, inlined here); otherwise the
absolute name is served from the identifier cache, or a fresh evalIdent
without any resolver is built and cached. -/
def planSelectRef (p : Planner) (id : Nat) (idRef : Reference) (st : PState) :
    Except Failure (Interp × PState) :=
  match idRef.value with
  | some c => decorate p (planConst id c st)
  | none =>
      match lookupIdent st.identMap idRef.name with
      | some i => .ok (i, st)
      | none =>
          let i : Interp := .evalIdent id idRef.name none
          .ok (i, pushIdent st idRef.name i)

/-- planner.getQualifiedID: walk a select chain down to a bare identifier,
accumulating the dotted path; any other operand kind makes the chain
invalid. -/
def getQualifiedID : Expr → String → String × Bool
  | .ident _ name, acc => (name ++ "." ++ acc, true)
  | .select _ op f _, acc => getQualifiedID op (f ++ "." ++ acc)
  | _, acc => (acc, false)

/-- The overload lookup of planner.planCall: by overload id first (when
one was statically chosen), falling back to the bare function name. -/
def resolveOverload (disp : String → Option Overload) (oName fnName : String) :
    Option Overload :=
  let byID := if oName ≠ "" then disp oName else none
  match byID with
  | some d => some d
  | none => disp fnName

/-- The oName computation of planner.planCall: the statically chosen
overload id, present exactly when the reference for this node lists a
single overload id. -/
def singleOverloadID (refMap : Nat → Option Reference) (id : Nat) : String :=
  match refMap id with
  | some r =>
      match r.overloadId with
      | [o] => o
      | _ => ""
  | none => ""

/-- planner.planCallZero: a zero-arity call must resolve to an entry with
a zero-arity (Function) form, else UnknownOverload. -/
def planCallZero (id : Nat) (function : String) (impl : Option Overload)
    (st : PState) : Except Failure (Interp × PState) :=
  match impl with
  | none => .error (.fail ("no such overload: " ++ function ++ "()"))
  | some o =>
      match o.function with
      | none => .error (.fail ("no such overload: " ++ function ++ "()"))
      | some f => .ok (.evalZeroArity id f, st)

/-- planner.planCallUnary: a found entry must supply the Unary form; a
missing entry defers resolution (nil impl). -/
def planCallUnary (id : Nat) (function overload : String)
    (impl : Option Overload) (args : List Interp) (st : PState) :
    Except Failure (Interp × PState) :=
  match impl with
  | some o =>
      match o.unary with
      | none => .error (.fail ("no such overload: " ++ function ++ "(arg)"))
      | some u => do
          let a ← index args 0
          .ok (.evalUnary id function overload a o.operandTrait (some u), st)
  | none => do
      let a ← index args 0
      .ok (.evalUnary id function overload a 0 none, st)

/-- planner.planCallBinary: a found entry must supply the Binary form; a
missing entry defers resolution (nil impl). -/
def planCallBinary (id : Nat) (function overload : String)
    (impl : Option Overload) (args : List Interp) (st : PState) :
    Except Failure (Interp × PState) :=
  match impl with
  | some o =>
      match o.binary with
      | none => .error (.fail ("no such overload: " ++ function ++ "(lhs, rhs)"))
      | some b => do
          let lhs ← index args 0
          let rhs ← index args 1
          .ok (.evalBinary id function overload lhs rhs o.operandTrait (some b), st)
  | none => do
      let lhs ← index args 0
      let rhs ← index args 1
      .ok (.evalBinary id function overload lhs rhs 0 none, st)

/-- planner.planCallVarArgs: a found entry must supply the Function form;
a missing entry defers resolution (nil impl). -/
def planCallVarArgs (id : Nat) (function overload : String)
    (impl : Option Overload) (args : List Interp) (st : PState) :
    Except Failure (Interp × PState) :=
  match impl with
  | some o =>
      match o.function with
      | none => .error (.fail ("no such overload: " ++ function ++ "(...)"))
      | some f => .ok (.evalVarArgs id function overload args o.operandTrait (some f), st)
  | none => .ok (.evalVarArgs id function overload args 0 none, st)

/-- planner.planCallEqual: the specialized equality node (args[0], args[1]). -/
def planCallEqual (id : Nat) (args : List Interp) (st : PState) :
    Except Failure (Interp × PState) := do
  let lhs ← index args 0
  let rhs ← index args 1
  .ok (.evalEq id lhs rhs, st)

/-- planner.planCallNotEqual: the specialized inequality node. -/
def planCallNotEqual (id : Nat) (args : List Interp) (st : PState) :
    Except Failure (Interp × PState) := do
  let lhs ← index args 0
  let rhs ← index args 1
  .ok (.evalNe id lhs rhs, st)

/-- planner.planCallLogicalAnd: the specialized short-circuit AND node. -/
def planCallLogicalAnd (id : Nat) (args : List Interp) (st : PState) :
    Except Failure (Interp × PState) := do
  let lhs ← index args 0
  let rhs ← index args 1
  .ok (.evalAnd id lhs rhs, st)

/-- planner.planCallLogicalOr: the specialized short-circuit OR node. -/
def planCallLogicalOr (id : Nat) (args : List Interp) (st : PState) :
    Except Failure (Interp × PState) := do
  let lhs ← index args 0
  let rhs ← index args 1
  .ok (.evalOr id lhs rhs, st)

/-- planner.planCallConditional: the specialized ternary node
(args[0] ? args[1] : args[2]). -/
def planCallConditional (id : Nat) (args : List Interp) (st : PState) :
    Except Failure (Interp × PState) := do
  let c ← index args 0
  let t ← index args 1
  let f ← index args 2
  .ok (.evalConditional id c t f, st)

/-- The post-argument stage of planner.planCall (lines 258-291): the
operator-specialization switch on the function name, then generic
dispatch by overload id or bare name, branched on argument count.
`args` already contains the planned receiver (if any) at position 0. -/
def planCallDispatch (p : Planner) (id : Nat) (fnName oName : String)
    (args : List Interp) (st : PState) : Except Failure (Interp × PState) :=
  if fnName = opLogicalAnd then planCallLogicalAnd id args st
  else if fnName = opLogicalOr then planCallLogicalOr id args st
  else if fnName = opConditional then planCallConditional id args st
  else if fnName = opEquals then planCallEqual id args st
  else if fnName = opNotEquals then planCallNotEqual id args st
  else
    let fnDef := resolveOverload p.disp oName fnName
    match args.length with
    | 0 => planCallZero id fnName fnDef st
    | 1 => planCallUnary id fnName oName fnDef args st
    | 2 => planCallBinary id fnName oName fnDef args st
    | _ + 3 => planCallVarArgs id fnName oName fnDef args st

mutual

/-- planner.Plan: dispatch on the node kind, passing every produced node
through the decorator chain. -/
def plan (p : Planner) : Expr → PState → Except Failure (Interp × PState)
  | .const id c, st => decorate p (planConst id c st)
  | .ident id name, st => decorate p (planIdentCore p id name st)
  | .select id operand field true, st =>
      decorate p
        (match plan p operand st with
         | .error e => .error e
         | .ok (op, st1) => .ok (.evalTestOnly id field op, st1))
  | .select id operand field false, st =>
      match p.refMap id with
      | some idRef => decorate p (planSelectRef p id idRef st)
      | none =>
          decorate p
            (match plan p operand st with
             | .error e => .error e
             | .ok (op, st1) =>
                 match getQualifiedID operand field with
                 | (qualID, true) => .ok (.evalSelect id field op (some qualID), st1)
                 | (_, false) => .ok (.evalSelect id field op none, st1))
  | .call id (some tgt) function args, st =>
      decorate p
        (match plan p tgt st with
         | .error e => .error e
         | .ok (t0, st1) =>
             match planList p args st1 with
             | .error e => .error e
             | .ok (is, st2) =>
                 planCallDispatch p id function (singleOverloadID p.refMap id)
                   (t0 :: is) st2)
  | .call id none function args, st =>
      decorate p
        (match planList p args st with
         | .error e => .error e
         | .ok (is, st1) =>
             planCallDispatch p id function (singleOverloadID p.refMap id) is st1)
  | .createList id elems, st =>
      decorate p
        (match planList p elems st with
         | .error e => .error e
         | .ok (is, st1) => .ok (.evalList id is, st1))
  | .createStruct id messageName entries, st =>
      decorate p
        (if messageName.length ≠ 0 then
          match List.find? (fun q => p.provider q)
              (p.pkg.resolveCandidateNames messageName) with
          | none => .error (.fail ("unknown type: " ++ messageName))
          | some typeName =>
              match planObjVals p entries st with
              | .error e => .error e
              | .ok (vals, st1) =>
                  .ok (.evalObj id typeName (entries.map fieldKeyOf) vals, st1)
        else
          match planMapEntries p entries st with
          | .error e => .error e
          | .ok (keys, vals, st1) => .ok (.evalMap id keys vals, st1))
  | .comprehension id iterVar iterRange accuVar accuInit cond step result, st =>
      decorate p
        (match plan p accuInit st with
         | .error e => .error e
         | .ok (accu, st1) =>
         match plan p iterRange st1 with
         | .error e => .error e
         | .ok (range, st2) =>
         match plan p cond st2 with
         | .error e => .error e
         | .ok (c, st3) =>
         match plan p step st3 with
         | .error e => .error e
         | .ok (s, st4) =>
         match plan p result st4 with
         | .error e => .error e
         | .ok (r, st5) =>
             .ok (.evalFold id accuVar accu iterVar range c s r, st5))

/-- Plan a list of sub-expressions in order, threading the state and
aborting at the first failure (the argument and element loops of
planCall, planCreateList). -/
def planList (p : Planner) : List Expr → PState → Except Failure (List Interp × PState)
  | [], st => .ok ([], st)
  | e :: rest, st =>
      match plan p e st with
      | .error err => .error err
      | .ok (i, st1) =>
          match planList p rest st1 with
          | .error err => .error err
          | .ok (is, st2) => .ok (i :: is, st2)

/-- The entry loop of planner.planCreateStruct (map construction): plan
each entry's key then value.  An entry whose key oneof holds a field key
has a nil MapKey, and planning nil dereferences a nil pointer in Go: a
panic. -/
def planMapEntries (p : Planner) : List Entry → PState →
    Except Failure (List Interp × List Interp × PState)
  | [], st => .ok ([], [], st)
  | .mapEntry k v :: rest, st =>
      match plan p k st with
      | .error err => .error err
      | .ok (ki, st1) =>
          match plan p v st1 with
          | .error err => .error err
          | .ok (vi, st2) =>
              match planMapEntries p rest st2 with
              | .error err => .error err
              | .ok (ks, vs, st3) => .ok (ki :: ks, vi :: vs, st3)
  | .fieldEntry _ _ :: _, _ => .error .panic

/-- The entry loop of planner.planCreateObj: plan each entry's value in
order (the field key is read structurally). -/
def planObjVals (p : Planner) : List Entry → PState →
    Except Failure (List Interp × PState)
  | [], st => .ok ([], st)
  | .fieldEntry _ v :: rest, st =>
      match plan p v st with
      | .error err => .error err
      | .ok (vi, st1) =>
          match planObjVals p rest st1 with
          | .error err => .error err
          | .ok (vs, st2) => .ok (vi :: vs, st2)
  | .mapEntry _ v :: rest, st =>
      match plan p v st with
      | .error err => .error err
      | .ok (vi, st1) =>
          match planObjVals p rest st1 with
          | .error err => .error err
          | .ok (vs, st2) => .ok (vi :: vs, st2)

end

/-! Helper lemmas. -/

/-- The arity switch of planCall, after discharging the five operator
specializations: generic dispatch resolves the implementation by overload
id with fallback to the bare name and branches on the argument count. -/
theorem planCallDispatch_generic (p : Planner) (id : Nat) (fn oName : String)
    (args : List Interp) (st : PState)
    (hand : fn ≠ opLogicalAnd) (hor : fn ≠ opLogicalOr)
    (hcond : fn ≠ opConditional) (heq : fn ≠ opEquals) (hne : fn ≠ opNotEquals) :
    planCallDispatch p id fn oName args st =
      match args.length with
      | 0 => planCallZero id fn (resolveOverload p.disp oName fn) st
      | 1 => planCallUnary id fn oName (resolveOverload p.disp oName fn) args st
      | 2 => planCallBinary id fn oName (resolveOverload p.disp oName fn) args st
      | _ + 3 => planCallVarArgs id fn oName (resolveOverload p.disp oName fn) args st := by
  simp only [planCallDispatch, if_neg hand, if_neg hor, if_neg hcond, if_neg heq, if_neg hne]

/-- List.find? returns the first element satisfying the predicate: if
everything before q fails the predicate and q satisfies it, find? is q. -/
theorem find?_append_first {α : Type} (pr : α → Bool) (l1 l2 : List α) (q : α)
    (h1 : ∀ x ∈ l1, pr x = false) (hq : pr q = true) :
    List.find? pr (l1 ++ q :: l2) = some q := by
  induction l1 with
  | nil => simp [List.find?, hq]
  | cons a tl ih =>
      have ha : pr a = false := h1 a (by simp)
      simp only [List.cons_append, List.find?, ha]
      exact ih fun x hx => h1 x (by simp [hx])

/-- The node produced by the decorator chain does not depend on the
incoming state (the state only accumulates the ghost log). -/
theorem decorateLoop_map_fst (decs : List Decorator) (i : Interp) :
    ∀ st st' : PState, Except.map Prod.fst (decorateLoop decs i st)
      = Except.map Prod.fst (decorateLoop decs i st') := by
  induction decs generalizing i with
  | nil => intro st st'; rfl
  | cons d rest ih =>
      intro st st'
      simp only [decorateLoop]
      cases d i with
      | error msg => rfl
      | ok i2 => exact ih i2 _ _

/-- An empty decorator chain passes every plan step through unchanged. -/
theorem decorate_nil (p : Planner) (h : p.decorators = [])
    (x : Except Failure (Interp × PState)) : decorate p x = x := by
  cases x with
  | error e => rfl
  | ok pr =>
      obtain ⟨i, st⟩ := pr
      simp [decorate, h, decorateLoop]

/-! Concrete fixtures used by witnesses and counterexamples. -/

/-- The empty planning state. -/
def st0 : PState := ⟨[], []⟩

/-- A planner with no registered overloads, no known types, an empty
package, an empty reference map and no decorators. -/
def pE : Planner := ⟨fun _ => none, fun _ => false, ⟨"", fun n => [n]⟩, fun _ => none, []⟩

/-- A planner registering a function named g with no arity-specific forms. -/
def pU : Planner :=
  ⟨fun n => if n = "g" then some { operator := "g" } else none,
   fun _ => false, ⟨"", fun n => [n]⟩, fun _ => none, []⟩

/-- A sample planned argument node. -/
def nOne : Interp := .evalConst 7 (.intV 1)

/-! C1. -/

/-- C1: a Call whose function name is logical AND, logical OR, the
ternary conditional, equality or inequality is planned to its dedicated
structural node (evalAnd, evalOr, evalConditional, evalEq, evalNe), and
the Overload Binder is never consulted: the result is the same for every
dispatcher, independent of whatever is registered under those names. -/
theorem C1_operator_specialization (p : Planner) (d : String → Option Overload)
    (id : Nat) (oName : String) (a b c : Interp) (rest : List Interp) (st : PState) :
    planCallDispatch p id opLogicalAnd oName (a :: b :: rest) st = .ok (.evalAnd id a b, st)
  ∧ planCallDispatch p id opLogicalOr oName (a :: b :: rest) st = .ok (.evalOr id a b, st)
  ∧ planCallDispatch p id opConditional oName (a :: b :: c :: rest) st
      = .ok (.evalConditional id a b c, st)
  ∧ planCallDispatch p id opEquals oName (a :: b :: rest) st = .ok (.evalEq id a b, st)
  ∧ planCallDispatch p id opNotEquals oName (a :: b :: rest) st = .ok (.evalNe id a b, st)
  ∧ planCallDispatch { p with disp := d } id opLogicalAnd oName (a :: b :: rest) st
      = planCallDispatch p id opLogicalAnd oName (a :: b :: rest) st
  ∧ planCallDispatch { p with disp := d } id opLogicalOr oName (a :: b :: rest) st
      = planCallDispatch p id opLogicalOr oName (a :: b :: rest) st
  ∧ planCallDispatch { p with disp := d } id opConditional oName (a :: b :: c :: rest) st
      = planCallDispatch p id opConditional oName (a :: b :: c :: rest) st
  ∧ planCallDispatch { p with disp := d } id opEquals oName (a :: b :: rest) st
      = planCallDispatch p id opEquals oName (a :: b :: rest) st
  ∧ planCallDispatch { p with disp := d } id opNotEquals oName (a :: b :: rest) st
      = planCallDispatch p id opNotEquals oName (a :: b :: rest) st :=
  ⟨rfl, rfl, rfl, rfl, rfl, rfl, rfl, rfl, rfl, rfl⟩

/-! C2. -/

/-- C2: generic dispatch of a call whose function name is none of the
five specialized operators.  A zero-argument call fails with
UnknownOverload when no implementation is found or the found entry lacks
the zero-arity form; a one-, two-, or variadic-argument call whose found
entry lacks the needed arity-specific form fails with UnknownOverload;
but when no entry is found at all, a non-zero-arity call plans
successfully with an explicit unresolved (none) implementation. -/
theorem C2_generic_dispatch_overload_errors (p : Planner) (id : Nat)
    (fn oName : String) (st : PState)
    (hand : fn ≠ opLogicalAnd) (hor : fn ≠ opLogicalOr)
    (hcond : fn ≠ opConditional) (heq : fn ≠ opEquals) (hne : fn ≠ opNotEquals) :
    (resolveOverload p.disp oName fn = none →
        planCallDispatch p id fn oName [] st
          = .error (.fail ("no such overload: " ++ fn ++ "()")))
  ∧ (∀ o, resolveOverload p.disp oName fn = some o → o.function = none →
        planCallDispatch p id fn oName [] st
          = .error (.fail ("no such overload: " ++ fn ++ "()")))
  ∧ (∀ o a, resolveOverload p.disp oName fn = some o → o.unary = none →
        planCallDispatch p id fn oName [a] st
          = .error (.fail ("no such overload: " ++ fn ++ "(arg)")))
  ∧ (∀ o a b, resolveOverload p.disp oName fn = some o → o.binary = none →
        planCallDispatch p id fn oName [a, b] st
          = .error (.fail ("no such overload: " ++ fn ++ "(lhs, rhs)")))
  ∧ (∀ o a b c rest, resolveOverload p.disp oName fn = some o → o.function = none →
        planCallDispatch p id fn oName (a :: b :: c :: rest) st
          = .error (.fail ("no such overload: " ++ fn ++ "(...)")))
  ∧ (resolveOverload p.disp oName fn = none →
        (∀ a, planCallDispatch p id fn oName [a] st
            = .ok (.evalUnary id fn oName a 0 none, st))
      ∧ (∀ a b, planCallDispatch p id fn oName [a, b] st
            = .ok (.evalBinary id fn oName a b 0 none, st))
      ∧ (∀ a b c rest, planCallDispatch p id fn oName (a :: b :: c :: rest) st
            = .ok (.evalVarArgs id fn oName (a :: b :: c :: rest) 0 none, st))) := by
  refine ⟨?_, ?_, ?_, ?_, ?_, ?_⟩
  · intro h
    rw [planCallDispatch_generic p id fn oName [] st hand hor hcond heq hne, h]
    rfl
  · intro o h hf
    rw [planCallDispatch_generic p id fn oName [] st hand hor hcond heq hne, h]
    simp [planCallZero, hf]
  · intro o a h hu
    rw [planCallDispatch_generic p id fn oName [a] st hand hor hcond heq hne, h]
    simp [planCallUnary, hu]
  · intro o a b h hb
    rw [planCallDispatch_generic p id fn oName [a, b] st hand hor hcond heq hne, h]
    simp [planCallBinary, hb]
  · intro o a b c rest h hf
    rw [planCallDispatch_generic p id fn oName (a :: b :: c :: rest) st hand hor hcond heq hne, h]
    simp [planCallVarArgs, hf]
  · intro h
    refine ⟨fun a => ?_, fun a b => ?_, fun a b c rest => ?_⟩
    · rw [planCallDispatch_generic p id fn oName [a] st hand hor hcond heq hne, h]
      rfl
    · rw [planCallDispatch_generic p id fn oName [a, b] st hand hor hcond heq hne, h]
      rfl
    · rw [planCallDispatch_generic p id fn oName (a :: b :: c :: rest) st hand hor hcond heq hne, h]
      rfl

/-- Witness for C2 at concrete inputs: an unregistered zero-argument call
errors, a registered function lacking its unary form errors on one
argument, and an unregistered two-argument call plans with a deferred
(none) implementation. -/
theorem C2_witness :
    planCallDispatch pE 1 "f" "" [] st0 = .error (.fail "no such overload: f()")
  ∧ planCallDispatch pU 1 "g" "" [nOne] st0 = .error (.fail "no such overload: g(arg)")
  ∧ planCallDispatch pE 1 "f" "" [nOne, nOne] st0
      = .ok (.evalBinary 1 "f" "" nOne nOne 0 none, st0) := by
  have h := C2_generic_dispatch_overload_errors pE 1 "f" "" st0
    (by decide) (by decide) (by decide) (by decide) (by decide)
  have hg := C2_generic_dispatch_overload_errors pU 1 "g" "" st0
    (by decide) (by decide) (by decide) (by decide) (by decide)
  exact ⟨h.1 rfl, hg.2.2.1 { operator := "g" } nOne rfl rfl, (h.2.2.2.2.2 rfl).2.1 nOne nOne⟩

/-! C9. -/

/-- C9: the specialized operator planners index their argument slice at
fixed positions with no arity check: a conditional call carrying fewer
than three arguments, or a logical/equality operator call carrying fewer
than two, makes planning crash (Go index-out-of-range panic) instead of
returning an error; the crash propagates through Plan of such a call. -/
theorem C9_specialized_operator_arity_panic (p : Planner) (id : Nat)
    (oName : String) (args : List Interp) (st : PState) :
    (args.length < 3 →
        planCallDispatch p id opConditional oName args st = .error .panic)
  ∧ (args.length < 2 →
        planCallDispatch p id opLogicalAnd oName args st = .error .panic
      ∧ planCallDispatch p id opLogicalOr oName args st = .error .panic
      ∧ planCallDispatch p id opEquals oName args st = .error .panic
      ∧ planCallDispatch p id opNotEquals oName args st = .error .panic)
  ∧ (∀ es is st1, planList p es st = .ok (is, st1) → is.length < 3 →
        plan p (.call id none opConditional es) st = .error .panic) := by
  refine ⟨?_, ?_, ?_⟩
  · intro h
    rcases args with _ | ⟨a, _ | ⟨b, _ | ⟨c, rest⟩⟩⟩
    · rfl
    · rfl
    · rfl
    · simp only [List.length_cons] at h; omega
  · intro h
    rcases args with _ | ⟨a, _ | ⟨b, rest⟩⟩
    · exact ⟨rfl, rfl, rfl, rfl⟩
    · exact ⟨rfl, rfl, rfl, rfl⟩
    · simp only [List.length_cons] at h; omega
  · intro es is st1 hpl hlen
    rw [plan]
    simp only [hpl]
    rcases is with _ | ⟨a, _ | ⟨b, _ | ⟨c, rest⟩⟩⟩
    · rfl
    · rfl
    · rfl
    · simp only [List.length_cons] at hlen; omega

/-- Witness for C9 at concrete inputs: a conditional with zero arguments
and a logical AND with one argument both crash, also through Plan. -/
theorem C9_witness :
    planCallDispatch pE 1 opConditional "" [] st0 = .error .panic
  ∧ planCallDispatch pE 1 opLogicalAnd "" [nOne] st0 = .error .panic
  ∧ plan pE (.call 1 none opConditional
        [.const 2 (.boolValue true), .const 3 (.boolValue false)]) st0 = .error .panic := by
  have h0 := C9_specialized_operator_arity_panic pE 1 "" [] st0
  have h1 := C9_specialized_operator_arity_panic pE 1 "" [nOne] st0
  refine ⟨h0.1 (by decide), (h1.2.1 (by decide)).1, ?_⟩
  exact h0.2.2 [.const 2 (.boolValue true), .const 3 (.boolValue false)]
    [.evalConst 2 (.boolV true), .evalConst 3 (.boolV false)] st0 rfl (by decide)

/-! C3. -/

/-- C3: within one compilation, planning an identifier name a second time
returns the identical shared node cached at the first occurrence, whether
the first occurrence was a bare identifier (planIdent) or a statically
resolved select reference (the reference-map branch of planSelect), and
whether the later occurrence goes through either path; the cache and the
state are left unchanged by the later occurrence.  This is the planIdent
and planSelect level, before Plan's decoration of the returned node. -/
theorem C3_shared_ident_instance (p : Planner) (st : PState) (name : String)
    (i : Interp) (st1 : PState) :
    (∀ id1, planIdentCore p id1 name st = .ok (i, st1) →
        lookupIdent st1.identMap name = some i
        ∧ (∀ id2, planIdentCore p id2 name st1 = .ok (i, st1))
        ∧ (∀ id3 oids, planSelectRef p id3 ⟨name, oids, none⟩ st1 = .ok (i, st1)))
  ∧ (∀ id0 oids0, planSelectRef p id0 ⟨name, oids0, none⟩ st = .ok (i, st1) →
        lookupIdent st1.identMap name = some i
        ∧ (∀ id2, planIdentCore p id2 name st1 = .ok (i, st1))
        ∧ (∀ id3 oids, planSelectRef p id3 ⟨name, oids, none⟩ st1 = .ok (i, st1))) := by
  constructor
  · intro id1 h
    cases hl : lookupIdent st.identMap name with
    | some j =>
        simp only [planIdentCore, hl, Except.ok.injEq, Prod.mk.injEq] at h
        obtain ⟨hi, hst⟩ := h
        subst hi; subst hst
        exact ⟨hl, fun id2 => by simp [planIdentCore, hl],
               fun id3 oids => by simp [planSelectRef, hl]⟩
    | none =>
        simp only [planIdentCore, hl, Except.ok.injEq, Prod.mk.injEq] at h
        obtain ⟨hi, hst⟩ := h
        subst hi; subst hst
        refine ⟨by simp [pushIdent, lookupIdent], fun id2 => ?_, fun id3 oids => ?_⟩
        · simp [planIdentCore, pushIdent, lookupIdent]
        · simp [planSelectRef, pushIdent, lookupIdent]
  · intro id0 oids0 h
    cases hl : lookupIdent st.identMap name with
    | some j =>
        simp only [planSelectRef, hl, Except.ok.injEq, Prod.mk.injEq] at h
        obtain ⟨hi, hst⟩ := h
        subst hi; subst hst
        exact ⟨hl, fun id2 => by simp [planIdentCore, hl],
               fun id3 oids => by simp [planSelectRef, hl]⟩
    | none =>
        simp only [planSelectRef, hl, Except.ok.injEq, Prod.mk.injEq] at h
        obtain ⟨hi, hst⟩ := h
        subst hi; subst hst
        refine ⟨by simp [pushIdent, lookupIdent], fun id2 => ?_, fun id3 oids => ?_⟩
        · simp [planIdentCore, pushIdent, lookupIdent]
        · simp [planSelectRef, pushIdent, lookupIdent]

/-- The shared identifier node of the C3 witness. -/
def nX : Interp := .evalIdent 1 "x" none

/-- Witness for C3: after a first bare-identifier occurrence of x, the
cached node is returned unchanged by both later paths. -/
theorem C3_witness :
    lookupIdent (pushIdent st0 "x" nX).identMap "x" = some nX
  ∧ planIdentCore pE 2 "x" (pushIdent st0 "x" nX) = .ok (nX, pushIdent st0 "x" nX)
  ∧ planSelectRef pE 3 ⟨"x", [], none⟩ (pushIdent st0 "x" nX)
      = .ok (nX, pushIdent st0 "x" nX) := by
  have h := (C3_shared_ident_instance pE st0 "x" nX (pushIdent st0 "x" nX)).1 1 rfl
  exact ⟨h.1, h.2.1 2, h.2.2 3 []⟩

/-! C10. -/

/-- C10: the identifier cache is keyed by the name alone and shared
between the bare-identifier path and the statically-resolved-select path,
so the first construction wins: under a non-empty package, a node first
built by planIdent carries the namespace-fallback resolver and is later
served as-is to the select path, while a node first built by the select
reference path carries no resolver and is later served as-is to
planIdent, even though the package is non-empty. -/
theorem C10_cache_first_construction_wins (p : Planner) (st : PState)
    (name : String) (id1 id2 : Nat) (oids : List String)
    (hfresh : lookupIdent st.identMap name = none)
    (hpkg : p.pkg.package ≠ "") :
    (planIdentCore p id1 name st
        = .ok (.evalIdent id1 name (some name),
               pushIdent st name (.evalIdent id1 name (some name)))
     ∧ planSelectRef p id2 ⟨name, oids, none⟩
          (pushIdent st name (.evalIdent id1 name (some name)))
        = .ok (.evalIdent id1 name (some name),
               pushIdent st name (.evalIdent id1 name (some name))))
  ∧ (planSelectRef p id2 ⟨name, oids, none⟩ st
        = .ok (.evalIdent id2 name none, pushIdent st name (.evalIdent id2 name none))
     ∧ planIdentCore p id1 name (pushIdent st name (.evalIdent id2 name none))
        = .ok (.evalIdent id2 name none, pushIdent st name (.evalIdent id2 name none))) := by
  refine ⟨⟨?_, ?_⟩, ?_, ?_⟩
  · simp [planIdentCore, hfresh, if_pos hpkg]
  · simp [planSelectRef, pushIdent, lookupIdent]
  · simp [planSelectRef, hfresh]
  · simp [planIdentCore, pushIdent, lookupIdent]

/-- A planner whose current package is non-empty (a.b). -/
def pN : Planner :=
  ⟨fun _ => none, fun _ => false,
   ⟨"a.b", fun n => ["a.b." ++ n, "a." ++ n, n]⟩, fun _ => none, []⟩

/-- Witness for C10 under package a.b: ident-first attaches the resolver
and the select path then shares it; select-first attaches none and the
ident path then shares the resolver-less node. -/
theorem C10_witness :
    (planIdentCore pN 1 "x" st0
        = .ok (.evalIdent 1 "x" (some "x"), pushIdent st0 "x" (.evalIdent 1 "x" (some "x")))
     ∧ planSelectRef pN 2 ⟨"x", [], none⟩ (pushIdent st0 "x" (.evalIdent 1 "x" (some "x")))
        = .ok (.evalIdent 1 "x" (some "x"), pushIdent st0 "x" (.evalIdent 1 "x" (some "x"))))
  ∧ (planSelectRef pN 2 ⟨"x", [], none⟩ st0
        = .ok (.evalIdent 2 "x" none, pushIdent st0 "x" (.evalIdent 2 "x" none))
     ∧ planIdentCore pN 1 "x" (pushIdent st0 "x" (.evalIdent 2 "x" none))
        = .ok (.evalIdent 2 "x" none, pushIdent st0 "x" (.evalIdent 2 "x" none))) :=
  C10_cache_first_construction_wins pN st0 "x" 1 2 [] rfl (by decide)

/-! C6. -/

/-- C6: object construction expands the type name through the namespace
candidate list in declared order; the first candidate recognized by the
type-existence provider names the built node, and if no candidate is
recognized planning fails with UnknownType (before any field value is
planned). -/
theorem C6_object_type_resolution (p : Planner) (st : PState) (id : Nat)
    (msgName : String) (entries : List Entry) (hmsg : msgName.length ≠ 0) :
    (List.find? (fun q => p.provider q) (p.pkg.resolveCandidateNames msgName) = none →
        ∀ entries2 : List Entry,
          plan p (.createStruct id msgName entries2) st
            = .error (.fail ("unknown type: " ++ msgName)))
  ∧ (∀ l1 q l2 vals st1,
        p.pkg.resolveCandidateNames msgName = l1 ++ q :: l2 →
        (∀ x ∈ l1, p.provider x = false) →
        p.provider q = true →
        planObjVals p entries st = .ok (vals, st1) →
        plan p (.createStruct id msgName entries) st
          = decorate p (.ok (.evalObj id q (entries.map fieldKeyOf) vals, st1))) := by
  constructor
  · intro hfind entries2
    rw [plan, if_pos hmsg, hfind]
    rfl
  · intro l1 q l2 vals st1 hcand hneg hq hvals
    have hfind : List.find? (fun x => p.provider x) (p.pkg.resolveCandidateNames msgName)
        = some q := by
      rw [hcand]
      exact find?_append_first _ l1 l2 q hneg hq
    rw [plan, if_pos hmsg]
    simp only [hfind, hvals]

/-- A planner knowing only the type T, with package a (candidates a.T
then T). -/
def pOb : Planner :=
  ⟨fun _ => none, fun q => q == "T", ⟨"a", fun n => ["a." ++ n, n]⟩, fun _ => none, []⟩

/-- A planner knowing no types, with package a. -/
def pObNone : Planner :=
  ⟨fun _ => none, fun _ => false, ⟨"a", fun n => ["a." ++ n, n]⟩, fun _ => none, []⟩

/-- Witness for C6 at concrete inputs: no candidate recognized fails with
unknown type; with candidates a.T then T and only T known, the built node
uses T, the first matching candidate in declared order. -/
theorem C6_witness :
    plan pObNone (.createStruct 1 "T" []) st0 = .error (.fail "unknown type: T")
  ∧ plan pOb (.createStruct 1 "T" []) st0
      = decorate pOb (.ok (.evalObj 1 "T" [] [], st0)) := by
  have h1 := C6_object_type_resolution pObNone st0 1 "T" [] (by decide)
  have h2 := C6_object_type_resolution pOb st0 1 "T" [] (by decide)
  refine ⟨h1.1 rfl [], ?_⟩
  have h3 := h2.2 ["a.T"] "T" [] [] st0 rfl (by decide) rfl rfl
  simpa using h3

/-! C7. -/

/-- C7: comprehension planning attempts its five sub-expressions in the
fixed order accumulator initializer, iteration range, loop condition,
loop step, result; the first failure is the returned error and the
sub-expressions after it are never planned (the outcome is independent of
them); when all five succeed the fold node is built from their results in
that order. -/
theorem C7_comprehension_order (p : Planner) (st : PState) (id : Nat)
    (itVar acVar : String) (accu range cond step res : Expr) (e : Failure) :
    (plan p accu st = .error e →
        ∀ range' cond' step' res',
          plan p (.comprehension id itVar range' acVar accu cond' step' res') st
            = .error e)
  ∧ (∀ i1 st1, plan p accu st = .ok (i1, st1) → plan p range st1 = .error e →
        ∀ cond' step' res',
          plan p (.comprehension id itVar range acVar accu cond' step' res') st
            = .error e)
  ∧ (∀ i1 st1 i2 st2, plan p accu st = .ok (i1, st1) →
        plan p range st1 = .ok (i2, st2) → plan p cond st2 = .error e →
        ∀ step' res',
          plan p (.comprehension id itVar range acVar accu cond step' res') st
            = .error e)
  ∧ (∀ i1 st1 i2 st2 i3 st3, plan p accu st = .ok (i1, st1) →
        plan p range st1 = .ok (i2, st2) → plan p cond st2 = .ok (i3, st3) →
        plan p step st3 = .error e →
        ∀ res',
          plan p (.comprehension id itVar range acVar accu cond step res') st
            = .error e)
  ∧ (∀ i1 st1 i2 st2 i3 st3 i4 st4, plan p accu st = .ok (i1, st1) →
        plan p range st1 = .ok (i2, st2) → plan p cond st2 = .ok (i3, st3) →
        plan p step st3 = .ok (i4, st4) → plan p res st4 = .error e →
        plan p (.comprehension id itVar range acVar accu cond step res) st
          = .error e)
  ∧ (∀ i1 st1 i2 st2 i3 st3 i4 st4 i5 st5, plan p accu st = .ok (i1, st1) →
        plan p range st1 = .ok (i2, st2) → plan p cond st2 = .ok (i3, st3) →
        plan p step st3 = .ok (i4, st4) → plan p res st4 = .ok (i5, st5) →
        plan p (.comprehension id itVar range acVar accu cond step res) st
          = decorate p (.ok (.evalFold id acVar i1 itVar i2 i3 i4 i5, st5))) := by
  refine ⟨?_, ?_, ?_, ?_, ?_, ?_⟩
  · intro h1 range' cond' step' res'
    rw [plan, h1]
    rfl
  · intro i1 st1 h1 h2 cond' step' res'
    rw [plan]
    simp only [h1, h2]
    rfl
  · intro i1 st1 i2 st2 h1 h2 h3 step' res'
    rw [plan]
    simp only [h1, h2, h3]
    rfl
  · intro i1 st1 i2 st2 i3 st3 h1 h2 h3 h4 res'
    rw [plan]
    simp only [h1, h2, h3, h4]
    rfl
  · intro i1 st1 i2 st2 i3 st3 i4 st4 h1 h2 h3 h4 h5
    rw [plan]
    simp only [h1, h2, h3, h4, h5]
    rfl
  · intro i1 st1 i2 st2 i3 st3 i4 st4 i5 st5 h1 h2 h3 h4 h5
    rw [plan]
    simp only [h1, h2, h3, h4, h5]

/-- Witness for C7: a comprehension whose accumulator initializer is a
malformed literal fails with that error, whatever the later
sub-expressions are. -/
theorem C7_witness :
    plan pE (.comprehension 1 "it" (.ident 3 "r") "ac" (.const 9 .unset)
        (.ident 4 "c") (.ident 5 "s") (.ident 6 "res")) st0
      = .error (.fail "unknown constant type") := by
  have h := C7_comprehension_order pE st0 1 "it" "ac" (.const 9 .unset)
    (.ident 3 "r") (.ident 4 "c") (.ident 5 "s") (.ident 6 "res")
    (.fail "unknown constant type")
  exact h.1 rfl (.ident 3 "r") (.ident 4 "c") (.ident 5 "s") (.ident 6 "res")

/-! C4. -/

/-- A planner with a single identity decorator. -/
def pD : Planner :=
  ⟨fun _ => none, fun _ => false, ⟨"", fun n => [n]⟩, fun _ => none,
   [fun i => .ok i]⟩

/-- The raw identifier node cached for x by pD. -/
def sharedIdentNode : Interp := .evalIdent 1 "x" none

/-- Counterexample to C4 as stated: the identifier cache stores the
undecorated node, and Plan passes the cached node through the decorator
chain again at every later reference.  With a single identity decorator,
the ghost decorLog (which records each decorator invocation's input)
gains the shared node once at the first occurrence of x and once more at
the second occurrence: the decorators ARE applied to it again. -/
theorem C4_redecoration_cex :
    plan pD (.ident 1 "x") st0
      = .ok (sharedIdentNode, ⟨[("x", sharedIdentNode)], [sharedIdentNode]⟩)
  ∧ plan pD (.ident 2 "x") ⟨[("x", sharedIdentNode)], [sharedIdentNode]⟩
      = .ok (sharedIdentNode,
             ⟨[("x", sharedIdentNode)], [sharedIdentNode, sharedIdentNode]⟩) :=
  ⟨rfl, rfl⟩

/-- C4 amended: the cache stores the identifier node as built, before
decoration; every reference to the name, including later ones, passes the
cached node through the decorator chain anew.  Later references return
the same underlying cached instance re-decorated, so (decorators being
pure functions) every reference yields an equal decorated result. -/
theorem C4_shared_ident_redecorated (p : Planner) (name : String) (i : Interp)
    (st st' : PState) (id id' : Nat)
    (h : lookupIdent st.identMap name = some i)
    (h' : lookupIdent st'.identMap name = some i) :
    plan p (.ident id name) st = decorateLoop p.decorators i st
  ∧ Except.map Prod.fst (plan p (.ident id name) st)
      = Except.map Prod.fst (plan p (.ident id' name) st') := by
  have e1 : plan p (.ident id name) st = decorateLoop p.decorators i st := by
    rw [plan]
    simp [planIdentCore, h, decorate]
  have e2 : plan p (.ident id' name) st' = decorateLoop p.decorators i st' := by
    rw [plan]
    simp [planIdentCore, h', decorate]
  refine ⟨e1, ?_⟩
  rw [e1, e2]
  exact decorateLoop_map_fst p.decorators i st st'

/-- Witness for the amended C4 at concrete inputs: two later references
to the cached x node both re-run the chain on the same cached node and
produce equal decorated results. -/
theorem C4_witness :
    plan pD (.ident 5 "x") ⟨[("x", sharedIdentNode)], [sharedIdentNode]⟩
      = decorateLoop pD.decorators sharedIdentNode
          ⟨[("x", sharedIdentNode)], [sharedIdentNode]⟩
  ∧ Except.map Prod.fst
      (plan pD (.ident 5 "x") ⟨[("x", sharedIdentNode)], [sharedIdentNode]⟩)
      = Except.map Prod.fst
          (plan pD (.ident 6 "x") ⟨[("x", sharedIdentNode)], []⟩) :=
  C4_shared_ident_redecorated pD "x" sharedIdentNode
    ⟨[("x", sharedIdentNode)], [sharedIdentNode]⟩
    ⟨[("x", sharedIdentNode)], []⟩ 5 6 rfl rfl

/-! C5. -/

/-- A reference map binding node id 1 to an enum-style reference with the
inlined constant 7. -/
def refC5 : Nat → Option Reference :=
  fun n => if n = 1 then some ⟨"E", [], some (.int64Value 7)⟩ else none

/-- A decorator wrapping every node (not idempotent). -/
def wrapDecorator : Decorator := fun i => .ok (.evalTestOnly 99 "w" i)

/-- A planner with the constant reference for node 1 and the wrapping
decorator. -/
def pW5 : Planner :=
  ⟨fun _ => none, fun _ => false, ⟨"", fun n => [n]⟩, refC5, [wrapDecorator]⟩

/-- Counterexample to C5 as stated: with a non-idempotent decorator
registered, planning a Select whose id carries an inlined constant is NOT
structurally identical to planning the constant directly.  The Select
path replans the constant through a nested Plan call (which decorates)
and the outer Plan dispatch decorates that result again, so the constant
node is wrapped twice, while planning the constant directly wraps once. -/
theorem C5_const_ref_cex :
    Except.map Prod.fst (plan pW5 (.select 1 (.ident 2 "e") "f" false) st0)
      ≠ Except.map Prod.fst (plan pW5 (.const 1 (.int64Value 7)) st0) := by
  have h1 : Except.map Prod.fst (plan pW5 (.select 1 (.ident 2 "e") "f" false) st0)
      = .ok (.evalTestOnly 99 "w" (.evalTestOnly 99 "w" (.evalConst 1 (.intV 7)))) := rfl
  have h2 : Except.map Prod.fst (plan pW5 (.const 1 (.int64Value 7)) st0)
      = .ok (.evalTestOnly 99 "w" (.evalConst 1 (.intV 7))) := rfl
  rw [h1, h2]
  simp

/-- C5 amended: planning a Select (not test-only) whose id carries a
non-empty inlined constant value equals planning that constant literal
directly and then passing the result through the decorator chain once
more; in particular with no registered decorators the two results are
structurally identical. -/
theorem C5_const_ref_double_decoration (p : Planner) (st : PState) (id : Nat)
    (op : Expr) (field nm : String) (oids : List String) (c : Constant)
    (h : p.refMap id = some ⟨nm, oids, some c⟩) :
    plan p (.select id op field false) st = decorate p (plan p (.const id c) st)
  ∧ (p.decorators = [] →
      plan p (.select id op field false) st = plan p (.const id c) st) := by
  have hL : plan p (.select id op field false) st
      = decorate p (decorate p (planConst id c st)) := by
    rw [plan, h]
    rfl
  have hR : plan p (.const id c) st = decorate p (planConst id c st) := by
    rw [plan]
  constructor
  · rw [hL, hR]
  · intro hd
    rw [hL, hR]
    simp only [decorate_nil p hd]

/-- A planner with the constant reference for node 1 and no decorators. -/
def pT : Planner :=
  ⟨fun _ => none, fun _ => false, ⟨"", fun n => [n]⟩, refC5, []⟩

/-- Witness for the amended C5 at concrete inputs, with an empty
decorator chain: the Select plans exactly like the constant. -/
theorem C5_witness :
    plan pT (.select 1 (.ident 2 "e") "f" false) st0
      = decorate pT (plan pT (.const 1 (.int64Value 7)) st0)
  ∧ plan pT (.select 1 (.ident 2 "e") "f" false) st0
      = plan pT (.const 1 (.int64Value 7)) st0 := by
  have h := C5_const_ref_double_decoration pT st0 1 (.ident 2 "e") "f" "E" []
    (.int64Value 7) rfl
  exact ⟨h.1, h.2 rfl⟩

/-! C8. -/

/-- Counterexample to C8 as stated: a Select marked test-only whose id
carries a non-empty inlined constant value is NOT treated as that
constant.  The test-only check precedes the reference-map lookup, so the
node is planned as a presence test over the planned operand (a runtime
lookup), and differs from planning the constant. -/
theorem C8_testonly_const_ref_cex :
    plan pT (.select 1 (.ident 2 "e") "f" true) st0
      = .ok (.evalTestOnly 1 "f" (.evalIdent 2 "e" none),
             pushIdent st0 "e" (.evalIdent 2 "e" none))
  ∧ Except.map Prod.fst (plan pT (.select 1 (.ident 2 "e") "f" true) st0)
      ≠ Except.map Prod.fst (plan pT (.const 1 (.int64Value 7)) st0) := by
  constructor
  · rfl
  · have h1 : Except.map Prod.fst (plan pT (.select 1 (.ident 2 "e") "f" true) st0)
        = .ok (.evalTestOnly 1 "f" (.evalIdent 2 "e" none)) := rfl
    have h2 : Except.map Prod.fst (plan pT (.const 1 (.int64Value 7)) st0)
        = .ok (.evalConst 1 (.intV 7)) := rfl
    rw [h1, h2]
    simp

/-- C8 amended: for a Select NOT marked test-only whose id is present in
the Reference Info map with a non-empty inlined constant value, planning
treats the node as that constant (the reference branch of planSelect is
exactly a replan of the constant); with no decorators the produced node
is the constant node itself, never a runtime-lookup node.  A Select
marked test-only is planned as a presence test first and its constant
reference is ignored. -/
theorem C8_static_const_ref_planned_as_constant (p : Planner) (st : PState)
    (id : Nat) (nm : String) (oids : List String) (c : Constant) (v : Val) :
    planSelectRef p id ⟨nm, oids, some c⟩ st = decorate p (planConst id c st)
  ∧ (p.decorators = [] → constValue c = .ok v →
      planSelectRef p id ⟨nm, oids, some c⟩ st = .ok (.evalConst id v, st)) := by
  refine ⟨rfl, fun hd hc => ?_⟩
  show decorate p (planConst id c st) = _
  rw [decorate_nil p hd]
  simp [planConst, hc]

/-- Witness for the amended C8 at concrete inputs. -/
theorem C8_witness :
    planSelectRef pE 4 ⟨"E", [], some (.int64Value 7)⟩ st0
      = decorate pE (planConst 4 (.int64Value 7) st0)
  ∧ planSelectRef pE 4 ⟨"E", [], some (.int64Value 7)⟩ st0
      = .ok (.evalConst 4 (.intV 7), st0) := by
  have h := C8_static_const_ref_planned_as_constant pE st0 4 "E" []
    (.int64Value 7) (.intV 7)
  exact ⟨h.1, h.2 rfl rfl⟩

end CelPlanner
